import Mathlib

/-!
Verification of the egress repository: shallow embedding of the
configuration-validation, filename, stream-config, pipeline bus-watch and
handler-construction code, with theorems settling the specification claims.

Go strings are modelled as `List Char`; Go maps used as sets are modelled as
lists (Go map iteration order is unspecified and is modelled as list order);
fallible Go functions return `Except`; side effects (logging, file system,
channels) are modelled as explicit state or effect logs.
-/

namespace Egress

/-- Go strings are modelled as lists of characters. -/
abbrev Str := List Char

/-- Coercion from Lean string literals into the model. -/
def str (s : String) : Str := s.data

/-! ## Go standard-library string primitives -/

/-- Fuel-based core of Go strings.Replace(s, old, new, -1) for nonempty old:
left-to-right, non-overlapping replacement of every occurrence. One unit of
fuel is spent per step and every step consumes at least one character of s,
so fuel = s.length suffices. -/
def replaceFuel (old new : Str) : Nat → Str → Str
  | 0, s => s
  | _ + 1, [] => []
  | fuel + 1, c :: rest =>
    if old.isPrefixOf (c :: rest) then
      new ++ replaceFuel old new fuel (List.drop (old.length - 1) rest)
    else
      c :: replaceFuel old new fuel rest

/-- Go strings.Replace(s, "", new, -1) inserts new before every character and
at the end of the string. -/
def insertEverywhere (new : Str) : Str → Str
  | [] => new
  | c :: rest => new ++ c :: insertEverywhere new rest

/-- Embedding of Go strings.Replace(s, old, new, -1). -/
def goReplace (s old new : Str) : Str :=
  if old.isEmpty then insertEverywhere new s
  else replaceFuel old new s.length s

/-- Embedding of stringReplace (pkg/config/output_file.go 704-709): applies
every replacement pair in turn with strings.Replace; the Go map is modelled
as a list in iteration order. -/
def stringReplace (s : Str) (replacements : List (Str × Str)) : Str :=
  replacements.foldl (fun acc kv => goReplace acc kv.1 kv.2) s

/-- Substring test: does sub occur (contiguously) in s? -/
def containsSubstr : Str → Str → Bool
  | [], sub => sub.isEmpty
  | c :: rest, sub => sub.isPrefixOf (c :: rest) || containsSubstr rest sub

theorem containsSubstr_nil_right (s : Str) : containsSubstr s [] = true := by
  cases s with
  | nil => rfl
  | cons c rest => simp [containsSubstr]

theorem replaceFuel_of_not_contains (old new : Str) (fuel : Nat) (s : Str)
    (h : containsSubstr s old = false) : replaceFuel old new fuel s = s := by
  induction fuel generalizing s with
  | zero => rfl
  | succ fuel ih =>
    cases s with
    | nil => rfl
    | cons c rest =>
      simp only [containsSubstr, Bool.or_eq_false_iff] at h
      simp only [replaceFuel, h.1, Bool.false_eq_true, if_false, ih rest h.2]

theorem goReplace_of_not_contains (s old new : Str)
    (h : containsSubstr s old = false) : goReplace s old new = s := by
  have hne : old.isEmpty = false := by
    cases old with
    | nil => rw [containsSubstr_nil_right] at h; exact absurd h (by simp)
    | cons c rest => rfl
  simp only [goReplace, hne, Bool.false_eq_true, if_false]
  exact replaceFuel_of_not_contains old new s.length s h

theorem stringReplace_fixed (replacements : List (Str × Str)) (t : Str)
    (h : ∀ kv ∈ replacements, containsSubstr t kv.1 = false) :
    stringReplace t replacements = t := by
  induction replacements with
  | nil => rfl
  | cons kv rest ih =>
    simp only [stringReplace, List.foldl_cons]
    rw [goReplace_of_not_contains t kv.1 kv.2 (h kv (List.mem_cons_self kv rest))]
    exact ih fun x hx => h x (List.mem_cons_of_mem kv hx)

/-- C6 (counterexample): the claim fails as stated; a replacement value that
itself contains the template token makes a second application grow the
string again. Here one application of the map sends the template string to
two copies of itself, and a second application yields four copies. -/
theorem stringReplace_not_idempotent :
    stringReplace (stringReplace (str "{t}") [(str "{t}", str "{t}{t}")])
        [(str "{t}", str "{t}{t}")] ≠
      stringReplace (str "{t}") [(str "{t}", str "{t}{t}")] := by
  decide

/-- C6 (amended): token substitution is idempotent on every input whose
once-substituted result contains no remaining occurrence of any template
token — in particular whenever the replacement values reintroduce no tokens,
as with the maps built by getFilenameInfo. -/
theorem stringReplace_idempotent_of_no_token (s : Str)
    (replacements : List (Str × Str))
    (h : ∀ kv ∈ replacements,
      containsSubstr (stringReplace s replacements) kv.1 = false) :
    stringReplace (stringReplace s replacements) replacements =
      stringReplace s replacements :=
  stringReplace_fixed replacements (stringReplace s replacements) h

/-- C6 witness: the amended idempotence theorem applied to a concrete
filename template and the room-name replacement map. -/
theorem stringReplace_idempotent_of_no_token_witness :
    stringReplace (stringReplace (str "{room_name}-rec.mp4")
        [(str "{room_name}", str "demo")]) [(str "{room_name}", str "demo")] =
      stringReplace (str "{room_name}-rec.mp4") [(str "{room_name}", str "demo")] :=
  stringReplace_idempotent_of_no_token (str "{room_name}-rec.mp4")
    [(str "{room_name}", str "demo")] (by decide)

/-! ## Go path.Clean and the storage-filepath sanitizer -/

/-- Splitting a string at every slash, keeping empty components (the model of
iterating path elements in Go path.Clean). -/
def splitOnSlash : Str → List Str
  | [] => [[]]
  | c :: rest =>
    let r := splitOnSlash rest
    if c = '/' then [] :: r
    else
      match r with
      | [] => [[c]]
      | h :: t => (c :: h) :: t

/-- Joining path components with single slashes. -/
def intercalateSlash : List Str → Str
  | [] => []
  | [x] => x
  | x :: rest => x ++ '/' :: intercalateSlash rest

/-- One step of lexical path cleaning over a reversed stack of kept
components: empty and "." components are dropped; ".." pops the previous
component, is dropped at the root of a rooted path, and accumulates at the
front of an unrooted path; other components are kept. -/
def cleanStep (rooted : Bool) (stack : List Str) (comp : Str) : List Str :=
  if comp = [] ∨ comp = str "." then stack
  else if comp = str ".." then
    match stack with
    | [] => if rooted then [] else [str ".."]
    | top :: rest => if top = str ".." then comp :: stack else rest
  else comp :: stack

/-- Modelled from the Go standard library: path.Clean, the purely lexical
shortest-equivalent-path algorithm (replace runs of slashes, eliminate "."
elements, eliminate ".." together with the preceding element, eliminate ".."
at the root of a rooted path; the cleaned empty path is "."). -/
def cleanGo (s : Str) : Str :=
  if s = [] then str "."
  else
    let rooted := s.head? = some '/'
    let stack := (splitOnSlash s).foldl (cleanStep rooted) []
    let out := intercalateSlash stack.reverse
    if rooted then '/' :: out
    else if out = [] then str "."
    else out

/-- Fuel-based embedding of the loop in clean (output_file.go 154-156) that
strips every leading "../" from the cleaned path; each iteration removes
three characters, so fuel = length suffices. -/
def stripDotDotFuel : Nat → Str → Str
  | 0, s => s
  | fuel + 1, s =>
    if (str "../").isPrefixOf s then stripDotDotFuel fuel (s.drop 3) else s

/-- Embedding of clean (pkg/config/output_file.go 151-164). -/
def clean (filepath : Str) : Str :=
  let hasEndingSlash := (str "/").isSuffixOf filepath
  let f := stripDotDotFuel (cleanGo filepath).length (cleanGo filepath)
  if f = [] ∨ f = str "." ∨ f = str ".." then []
  else if hasEndingSlash then f ++ str "/"
  else f

theorem stripDotDotFuel_no_prefix (fuel : Nat) (s : Str) (h : s.length ≤ fuel) :
    (str "../").isPrefixOf (stripDotDotFuel fuel s) = false := by
  induction fuel generalizing s with
  | zero =>
    have : s = [] := List.length_eq_zero.mp (Nat.le_zero.mp h)
    subst this
    decide
  | succ fuel ih =>
    by_cases hp : (str "../").isPrefixOf s = true
    · simp only [stripDotDotFuel, hp, if_true]
      have hlen : 3 ≤ s.length := by
        have := List.IsPrefix.length_le (List.isPrefixOf_iff_prefix.mp hp)
        simpa [str] using this
      exact ih (s.drop 3) (by simp [List.length_drop]; omega)
    · simp only [stripDotDotFuel, hp, if_false]
      exact Bool.eq_false_iff.mpr hp

theorem isPrefixOf_dotDotSlash_append_slash (f : Str)
    (h : (str "../").isPrefixOf f = false) (hne : f ≠ str "..") :
    (str "../").isPrefixOf (f ++ str "/") = false := by
  match f with
  | [] => decide
  | [a] =>
    simp [str, List.isPrefixOf]
  | [a, b] =>
    by_cases ha : a = '.'
    · by_cases hb : b = '.'
      · exact absurd (by rw [ha, hb]; rfl) hne
      · have hbb : ('.' == b) = false := beq_eq_false_iff_ne.mpr (fun hx => hb hx.symm)
        simp [str, List.isPrefixOf, hbb]
    · have haa : ('.' == a) = false := beq_eq_false_iff_ne.mpr (fun hx => ha hx.symm)
      simp [str, List.isPrefixOf, haa]
  | a :: b :: c :: t =>
    simp only [str, List.isPrefixOf, List.cons_append, Bool.and_true] at h ⊢
    exact h

/-- C8: the cleaned storage filepath never begins with "../" (all leading
upward-traversal prefixes are stripped after lexical path cleaning), and the
inputs "", "." and ".." are all mapped to the empty path. -/
theorem clean_no_upward_traversal :
    (∀ s : Str, (str "../").isPrefixOf (clean s) = false) ∧
      clean (str "") = [] ∧ clean (str ".") = [] ∧ clean (str "..") = [] := by
  refine ⟨fun s => ?_, by decide, by decide, by decide⟩
  unfold clean
  set f := stripDotDotFuel (cleanGo s).length (cleanGo s) with hf
  have hnp : (str "../").isPrefixOf f = false :=
    stripDotDotFuel_no_prefix (cleanGo s).length (cleanGo s) le_rfl
  by_cases h1 : f = [] ∨ f = str "." ∨ f = str ".."
  · simp only [h1, if_true]
    decide
  · simp only [h1, if_false]
    by_cases h2 : (str "/").isSuffixOf s = true
    · simp only [h2, if_true]
      exact isPrefixOf_dotDotSlash_append_slash f hnp (fun hc => h1 (Or.inr (Or.inr hc)))
    · simp only [h2, if_false]
      exact hnp

/-! ## Data model: output types, egress types, errors, output configs -/

/-- Modelled from the spec: types.OutputType (types package not in src/) —
the output containers and protocols of §3/§6: mp4, ogg, webm file containers,
HLS playlists, RTMP streams, raw-websocket streams, plus the
unknown-file-type placeholder. -/
inductive OutputType
  | mp4
  | ogg
  | webm
  | hls
  | rtmp
  | raw
  | unknownFile
deriving DecidableEq

/-- Modelled from the spec: types.EgressType — the output-set keys of the
PipelineConfig (§3 OutputConfig variants). -/
inductive EgressType
  | file
  | stream
  | segments
  | websocket
deriving DecidableEq

/-- Errors of the egress errors package that the embedded code constructs
(pkg/errors not in src/; the constructors mirror the call sites in src/). -/
inductive EgressError
  | invalidInput (field : Str)
  | invalidUrl (url reason : Str)
  | noCompatibleCodec
  | incompatible (outputType : OutputType) (codec : Str)
  | noCompatibleFileOutputType
  | gstPipelineError (msg : Str)
  | streamNotFound (name : Str)
deriving DecidableEq

/-- File output state (the pure fields of FileConfig in
pkg/config/output_file.go; local-filesystem fields are omitted). -/
structure FileConfig where
  outputType : OutputType
  storageFilepath : Str := []
  fileInfoFilename : Str := []
  disableManifest : Bool := false
deriving DecidableEq

/-- Stream output state (StreamConfig in src/unnamed/part_000): ordered URL
list and the per-URL redacted StreamInfo urls. -/
structure StreamConfig where
  outputType : OutputType
  urls : List Str := []
  streamInfoUrls : List (Str × Str) := []
deriving DecidableEq

/-- OutputConfig variants stored in PipelineConfig.Outputs. -/
inductive OutputConfig
  | file (conf : FileConfig)
  | stream (conf : StreamConfig)
deriving DecidableEq

/-- Embedding of outputConfig.GetOutputType. -/
def OutputConfig.getOutputType : OutputConfig → OutputType
  | .file conf => conf.outputType
  | .stream conf => conf.outputType

/-! ## File extensions and updateFilepath -/

/-- Modelled from the spec: types.FileExtensionForOutputType — the correct
extension for each known file output type (§6 file formats); Go map indexing
yields the empty string for types without one. -/
def FileExtensionForOutputType : OutputType → Str
  | .mp4 => str ".mp4"
  | .ogg => str ".ogg"
  | .webm => str ".webm"
  | .hls => str ".m3u8"
  | _ => []

/-- Modelled from the spec: types.FileExtensions — the set of recognized file
extensions (§6: MP4, OGG, WebM containers, HLS playlist .m3u8 plus TS
segments). -/
def FileExtensions : List Str :=
  [str ".mp4", str ".ogg", str ".webm", str ".m3u8", str ".ts"]

/-- Index of the last "." in a string, the embedding of
strings.LastIndex(s, "."). -/
def lastDotIndex : Str → Option Nat
  | [] => none
  | c :: rest =>
    match lastDotIndex rest with
    | some i => some (i + 1)
    | none => if c = '.' then some 0 else none

/-- Embedding of the storage-filepath computation of updateFilepath
(pkg/config/output_file.go 99-122): token substitution, then filename
generation for empty or slash-terminated paths, or replacement of a
recognized wrong extension, or appending of the correct extension. The
time.Now() filename timestamp is the now parameter; the os.MkdirAll /
LocalFilepath side effects (lines 124-146) are omitted. -/
def updateStorageFilepath (outputType : OutputType) (storageFilepath : Str)
    (identifier now : Str) (replacements : List (Str × Str)) : Str :=
  let sp := stringReplace storageFilepath replacements
  let ext := FileExtensionForOutputType outputType
  if sp = [] ∨ (str "/").isSuffixOf sp then
    sp ++ identifier ++ str "-" ++ now ++ ext
  else if ext.isSuffixOf sp = false then
    let sp2 :=
      match lastDotIndex sp with
      | some extIdx =>
        if (sp.drop extIdx) ∈ FileExtensions then sp.take extIdx else sp
      | none => sp
    sp2 ++ ext
  else sp

theorem lastDotIndex_eq_none (t : Str) (h : '.' ∉ t) : lastDotIndex t = none := by
  induction t with
  | nil => rfl
  | cons c rest ih =>
    simp only [List.mem_cons, not_or] at h
    simp only [lastDotIndex, ih h.2]
    simp [Ne.symm h.1, h.1]

theorem lastDotIndex_append_dot (pre tail : Str) (h : '.' ∉ tail) :
    lastDotIndex (pre ++ '.' :: tail) = some pre.length := by
  induction pre with
  | nil =>
    simp only [List.nil_append, lastDotIndex, lastDotIndex_eq_none tail h]
    simp
  | cons c pre ih =>
    simp only [List.cons_append, lastDotIndex, List.append_eq, ih]
    rfl

theorem dropIdx_not_ext (s : Str) (i : Nat)
    (hall : ∀ e ∈ FileExtensions, e.isSuffixOf s = false) :
    (s.drop i) ∉ FileExtensions := by
  intro hmem
  have hsuf : (s.drop i).isSuffixOf s = true :=
    List.isSuffixOf_iff_suffix.mpr (List.drop_suffix i s)
  rw [hall (s.drop i) hmem] at hsuf
  exact absurd hsuf (by simp)

/-- C5: for every file output with a known output type, after token
substitution: an empty or slash-terminated storage path has the generated
filename identifier-timestamp.ext appended to it; a path ending in a
different recognized extension has that extension stripped and the correct
one appended; a path ending in no recognized extension has the correct
extension appended unchanged. -/
theorem updateFilepath_cases (outputType : OutputType)
    (storageFilepath identifier now : Str) (replacements : List (Str × Str))
    (s : Str) (hs : s = stringReplace storageFilepath replacements)
    (hknown : FileExtensionForOutputType outputType ≠ []) :
    ((s = [] ∨ (str "/").isSuffixOf s = true) →
      updateStorageFilepath outputType storageFilepath identifier now replacements =
        s ++ identifier ++ str "-" ++ now ++ FileExtensionForOutputType outputType) ∧
    (∀ pre e, (s ≠ [] ∧ (str "/").isSuffixOf s = false) →
      (FileExtensionForOutputType outputType).isSuffixOf s = false →
      e ∈ FileExtensions → s = pre ++ e →
      updateStorageFilepath outputType storageFilepath identifier now replacements =
        pre ++ FileExtensionForOutputType outputType) ∧
    ((s ≠ [] ∧ (str "/").isSuffixOf s = false) →
      (FileExtensionForOutputType outputType).isSuffixOf s = false →
      (∀ e ∈ FileExtensions, e.isSuffixOf s = false) →
      updateStorageFilepath outputType storageFilepath identifier now replacements =
        s ++ FileExtensionForOutputType outputType) := by
  have hsv : stringReplace storageFilepath replacements = s := hs.symm
  refine ⟨fun hcond => ?_, fun pre e hne hsuf hmem hsplit => ?_, fun hne hsuf hall => ?_⟩
  · simp only [updateStorageFilepath, hsv]
    rw [if_pos hcond]
  · have hcond : ¬(s = [] ∨ (str "/").isSuffixOf s = true) := by
      rw [hne.2]; simp [hne.1]
    simp only [updateStorageFilepath, hsv]
    rw [if_neg hcond, if_pos hsuf]
    have hdot : ∃ tail : Str, e = '.' :: tail ∧ '.' ∉ tail := by
      simp only [FileExtensions, List.mem_cons, List.not_mem_nil, or_false] at hmem
      rcases hmem with h | h | h | h | h <;>
        exact ⟨_, by rw [h]; exact ⟨rfl, by decide⟩⟩
    obtain ⟨tail, htail, hnd⟩ := hdot
    have hidx : lastDotIndex s = some pre.length := by
      rw [hsplit, htail]
      exact lastDotIndex_append_dot pre tail hnd
    simp only [hidx]
    have hdrop : s.drop pre.length = e := by rw [hsplit]; exact List.drop_left pre e
    have htake : s.take pre.length = pre := by rw [hsplit]; exact List.take_left pre e
    rw [hdrop, htake, if_pos hmem]
  · have hcond : ¬(s = [] ∨ (str "/").isSuffixOf s = true) := by
      rw [hne.2]; simp [hne.1]
    simp only [updateStorageFilepath, hsv]
    rw [if_neg hcond, if_pos hsuf]
    cases hidx : lastDotIndex s with
    | none => rfl
    | some i =>
      simp only [hidx]
      rw [if_neg (dropIdx_not_ext s i hall)]

/-- C5 witness: the recognized-wrong-extension case applied to the concrete
path "out/file.ogg" with target type mp4, yielding "out/file.mp4". -/
theorem updateFilepath_cases_witness :
    updateStorageFilepath .mp4 (str "out/file.ogg") (str "demo")
        (str "2024-01-02T123456") [] = str "out/file" ++ FileExtensionForOutputType .mp4 :=
  (updateFilepath_cases .mp4 (str "out/file.ogg") (str "demo")
      (str "2024-01-02T123456") [] (str "out/file.ogg") (by decide) (by decide)).2.1
    (str "out/file") (str ".ogg") ⟨by decide, by decide⟩ (by decide) (by decide) (by decide)

/-! ## PipelineConfig and the request model -/

/-- EgressStatus enum (§6). -/
inductive EgressStatus
  | starting
  | active
  | ending
  | complete
  | failed
  | aborted
deriving DecidableEq

/-- Source variants: headless web page or real-time-media SDK (§4.7). -/
inductive SourceType
  | web
  | sdk
deriving DecidableEq

/-- The externally visible status record (livekit.EgressInfo), restricted to
the fields the embedded code reads or writes. -/
structure EgressInfo where
  egressId : Str := []
  roomId : Str := []
  roomName : Str := []
  status : EgressStatus := .starting
  error : Str := []
  updatedAt : Int := 0
  endedAt : Int := 0
deriving DecidableEq

/-- Go mime type strings (types package constants). -/
def MimeTypeAAC : Str := str "audio/aac"

/-- Mime type of H264 video. -/
def MimeTypeH264 : Str := str "video/h264"

/-- Mime type of Opus audio. -/
def MimeTypeOpus : Str := str "audio/opus"

/-- Mime type of VP8 video. -/
def MimeTypeVP8 : Str := str "video/vp8"

/-- Mime type of raw PCM audio. -/
def MimeTypeRawAudio : Str := str "audio/x-raw"

/-- Embedding of PipelineConfig (output_file.go part 2, lines 192-260),
restricted to the fields the embedded code reads or writes; the unset Go
string is the empty string and KeyFrameInterval (float64, only ever compared
with 0 and set to 4) is modelled as a rational. -/
structure PipelineConfig where
  apiKey : Str := []
  apiSecret : Str := []
  wsUrl : Str := []
  token : Str := []
  sourceType : SourceType := .web
  latency : Int := 0
  awaitStartSignal : Bool := false
  trackId : Str := []
  audioEnabled : Bool := false
  audioTranscoding : Bool := false
  audioOutCodec : Str := []
  audioBitrate : Int := 0
  audioFrequency : Int := 0
  videoEnabled : Bool := false
  videoTranscoding : Bool := false
  videoOutCodec : Str := []
  videoProfile : Str := []
  width : Int := 0
  height : Int := 0
  depth : Int := 0
  framerate : Int := 0
  videoBitrate : Int := 0
  keyFrameInterval : ℚ := 0
  outputs : List (EgressType × OutputConfig) := []
  info : EgressInfo := {}
deriving DecidableEq

/-- Web-source input latency (webLatency, 2e9 ns). -/
def webLatency : Int := 2000000000

/-- SDK-source input latency (sdkLatency, 3e9 ns). -/
def sdkLatency : Int := 3000000000

/-- Embedding of getFilenameInfo (output_file.go 81-97); the two time.Now()
formats ("2006-01-02T150405" and the utc milliseconds form) are the
nowTime / nowUtc parameters. -/
def getFilenameInfo (p : PipelineConfig) (nowTime nowUtc : Str) :
    Str × List (Str × Str) :=
  if p.info.roomName ≠ [] then
    (p.info.roomName,
      [(str "{room_name}", p.info.roomName), (str "{room_id}", p.info.roomId),
        (str "{time}", nowTime), (str "{utc}", nowUtc)])
  else
    (str "web", [(str "{time}", nowTime), (str "{utc}", nowUtc)])

/-- Embedding of getFileConfig (output_file.go 58-79); the upload
configuration and manifest plumbing are omitted (no upload target in the
claims considered), so LocalFilepath handling does not arise and the
storage filepath is the whole observable state. -/
def getFileConfig (p : PipelineConfig) (outputType : OutputType)
    (filepath : Str) (disableManifest : Bool) (nowTime nowUtc nowFile : Str) :
    Except EgressError FileConfig :=
  let conf0 : FileConfig :=
    {outputType := outputType, storageFilepath := clean filepath,
      disableManifest := disableManifest}
  let info := getFilenameInfo p nowTime nowUtc
  if outputType ≠ .unknownFile then
    let sp := updateStorageFilepath outputType conf0.storageFilepath info.1 nowFile info.2
    .ok {conf0 with storageFilepath := sp, fileInfoFilename := sp}
  else
    .ok {conf0 with storageFilepath := stringReplace conf0.storageFilepath info.2}

/-! ## URL validation and stream configs -/

/-- Modelled from Go net/url.Parse: the URL scheme is the prefix before the
first ":" and is empty when the URL has none; parse failures do not arise
for the inputs considered here. -/
def urlScheme (rawUrl : Str) : Str :=
  if rawUrl.contains ':' then rawUrl.takeWhile (fun c => c != ':') else []

/-- Modelled from the spec: util.RedactStreamKey (§4.4) — an RTMP URL must
match rtmp(s)://host(/path)/app/stream_key( live=1); on a match the stream
key is elided from the returned URL, otherwise the second component is
false (util package not in src/). -/
def RedactStreamKey (rawUrl : Str) : Str × Bool :=
  let live := str " live=1"
  let core := if live.isSuffixOf rawUrl then rawUrl.take (rawUrl.length - live.length) else rawUrl
  let parse : Option (Str × Str) :=
    if (str "rtmp://").isPrefixOf core then some (str "rtmp://", core.drop 7)
    else if (str "rtmps://").isPrefixOf core then some (str "rtmps://", core.drop 8)
    else none
  match parse with
  | none => (rawUrl, false)
  | some (scheme, rest) =>
    let parts := splitOnSlash rest
    if 3 ≤ parts.length ∧ [] ∉ parts then
      (scheme ++ intercalateSlash (parts.dropLast ++ [str "xxxxx"]), true)
    else (rawUrl, false)

/-- Embedding of ValidateUrl (output_file.go part 2, 679-702): RTMP URLs go
through stream-key redaction, raw websocket URLs must use the ws or wss
scheme, any other output type is an invalid stream output type. -/
def ValidateUrl (rawUrl : Str) (outputType : OutputType) : Except EgressError Str :=
  match outputType with
  | .rtmp =>
    let redacted := RedactStreamKey rawUrl
    if redacted.2 then .ok redacted.1
    else .error (.invalidUrl rawUrl
      (str "rtmp urls must be of format rtmp(s)://{host}(/{path})/{app}/{stream_key}( live=1)"))
  | .raw =>
    if urlScheme rawUrl = str "ws" ∨ urlScheme rawUrl = str "wss" then .ok rawUrl
    else .error (.invalidUrl rawUrl (str "invalid scheme"))
  | _ => .error (.invalidInput (str "stream output type"))

/-- Embedding of the URL-validation loop of getStreamConfig
(src/unnamed/part_000, 53-63): the first invalid URL aborts; otherwise the
per-URL StreamInfo entries (rawUrl, redacted) are collected in order. -/
def validateStreamUrls (outputType : OutputType) :
    List Str → Except EgressError (List (Str × Str))
  | [] => .ok []
  | u :: rest =>
    match ValidateUrl u outputType with
    | .error e => .error e
    | .ok redacted =>
      match validateStreamUrls outputType rest with
      | .error e => .error e
      | .ok infos => .ok ((u, redacted) :: infos)

/-- Embedding of getStreamConfig (src/unnamed/part_000, 31-66): an RTMP
output pins the audio codec to AAC and the video codec to H264, a raw
websocket-out output pins the audio codec to raw audio, the key frame
interval defaults to 4 when it was 0, and every URL is validated. Returns
the mutated PipelineConfig together with the config or the error. -/
def getStreamConfig (p : PipelineConfig) (outputType : OutputType)
    (urls : List Str) : PipelineConfig × Except EgressError StreamConfig :=
  let p1 :=
    match outputType with
    | .rtmp => {p with audioOutCodec := MimeTypeAAC, videoOutCodec := MimeTypeH264}
    | .raw => {p with audioOutCodec := MimeTypeRawAudio}
    | _ => p
  let confUrls :=
    match outputType with
    | .rtmp => urls
    | .raw => urls
    | _ => []
  let p2 := if p1.keyFrameInterval = 0 then {p1 with keyFrameInterval := 4} else p1
  match validateStreamUrls outputType urls with
  | .error e => (p2, .error e)
  | .ok infos =>
    (p2, .ok {outputType := outputType, urls := confUrls, streamInfoUrls := infos})

/-- C9: an RTMP stream output unconditionally sets the audio output codec to
AAC and the video output codec to H264, a raw websocket-out output sets the
audio output codec to raw audio, and in both cases the key frame interval
defaults to 4 exactly when it was 0. -/
theorem getStreamConfig_codecs (p : PipelineConfig) (urls : List Str) :
    (getStreamConfig p .rtmp urls).1.audioOutCodec = MimeTypeAAC ∧
    (getStreamConfig p .rtmp urls).1.videoOutCodec = MimeTypeH264 ∧
    (getStreamConfig p .raw urls).1.audioOutCodec = MimeTypeRawAudio ∧
    (getStreamConfig p .rtmp urls).1.keyFrameInterval =
      (if p.keyFrameInterval = 0 then 4 else p.keyFrameInterval) ∧
    (getStreamConfig p .raw urls).1.keyFrameInterval =
      (if p.keyFrameInterval = 0 then 4 else p.keyFrameInterval) := by
  refine ⟨?_, ?_, ?_, ?_, ?_⟩ <;>
    · simp only [getStreamConfig]
      cases validateStreamUrls _ urls <;>
        by_cases h : p.keyFrameInterval = 0 <;> simp [h]

/-! ## Codec resolution -/

/-- Modelled from the spec: types.AllOutputAudioCodecs (§4.8 step 1). -/
def AllOutputAudioCodecs : List Str := [MimeTypeAAC, MimeTypeOpus, MimeTypeRawAudio]

/-- Modelled from the spec: types.AllOutputVideoCodecs (§4.8 step 1). -/
def AllOutputVideoCodecs : List Str := [MimeTypeH264, MimeTypeVP8]

/-- Modelled from the spec: types.CodecCompatibility (§4.8, §6 output
formats) — which output codecs each output type accepts: MP4 takes AAC and
H264, OGG takes Opus, WebM takes Opus and VP8, HLS and RTMP take AAC and
H264, raw websocket-out takes raw PCM audio. -/
def CodecCompatibility : OutputType → Str → Bool
  | .mp4, c => c == MimeTypeAAC || c == MimeTypeH264
  | .ogg, c => c == MimeTypeOpus
  | .webm, c => c == MimeTypeOpus || c == MimeTypeVP8
  | .hls, c => c == MimeTypeAAC || c == MimeTypeH264
  | .rtmp, c => c == MimeTypeAAC || c == MimeTypeH264
  | .raw, c => c == MimeTypeRawAudio
  | .unknownFile, _ => false

/-- Modelled from the spec: types.GetMapIntersection — intersection of a
codec set with a compatibility set; codec sets are Go maps used as sets,
modelled as lists. -/
def GetMapIntersection (a : List Str) (compat : Str → Bool) : List Str :=
  a.filter compat

/-- Embedding of the per-output loops of validateAndUpdateOutputCodecs
(output_file.go part 2, 589-599 and 609-619): the running codec set is
intersected with each output's compatibility set; on an empty intersection
the error is generic when checkCodec is unset and names the output type and
reportCodec otherwise. The audio loop passes the audio codec for both;
the video loop of the source checks AudioOutCodec but reports VideoOutCodec
(line 612), hence the two parameters. -/
def intersectWithOutputs (checkCodec reportCodec : Str) :
    List Str → List (EgressType × OutputConfig) → Except EgressError (List Str)
  | acc, [] => .ok acc
  | acc, o :: rest =>
    let acc2 := GetMapIntersection acc (CodecCompatibility o.2.getOutputType)
    if acc2.isEmpty then
      if checkCodec = [] then .error .noCompatibleCodec
      else .error (.incompatible o.2.getOutputType reportCodec)
    else intersectWithOutputs checkCodec reportCodec acc2 rest

/-- Embedding of validateAndUpdateOutputCodecs (output_file.go part 2,
577-622): the audio pass runs when audio is enabled, starting from the
pinned audio codec or all output audio codecs; then the video pass likewise;
note that the video pass decides generic-versus-specific error by checking
AudioOutCodec, exactly as line 612 of the source does. -/
def validateAndUpdateOutputCodecs (p : PipelineConfig) :
    Except EgressError (List Str × List Str) :=
  let audioRes : Except EgressError (List Str) :=
    if p.audioEnabled then
      intersectWithOutputs p.audioOutCodec p.audioOutCodec
        (if p.audioOutCodec = [] then AllOutputAudioCodecs else [p.audioOutCodec])
        p.outputs
    else .ok []
  match audioRes with
  | .error e => .error e
  | .ok compatibleAudio =>
    let videoRes : Except EgressError (List Str) :=
      if p.videoEnabled then
        intersectWithOutputs p.audioOutCodec p.videoOutCodec
          (if p.videoOutCodec = [] then AllOutputVideoCodecs else [p.videoOutCodec])
          p.outputs
      else .ok []
    match videoRes with
    | .error e => .error e
    | .ok compatibleVideo => .ok (compatibleAudio, compatibleVideo)

/-- C1 (refuting evaluation): a video-only configuration pinning the VP8
video codec against an RTMP output — VP8 is incompatible with RTMP, a codec
was pinned, yet codec resolution returns the generic ErrNoCompatibleCodec
instead of ErrIncompatible(rtmp, vp8), because the video loop tests the
audio codec field (source line 612) against its own comment. -/
theorem codecResolution_generic_error_despite_pinned_codec :
    validateAndUpdateOutputCodecs
        {videoEnabled := true, videoOutCodec := MimeTypeVP8,
          outputs := [(.stream, .stream {outputType := .rtmp})]} =
      .error .noCompatibleCodec ∧
    MimeTypeVP8 ≠ [] ∧ CodecCompatibility .rtmp MimeTypeVP8 = false :=
  ⟨rfl, by decide, rfl⟩

/-! ## The Track request variant of Update -/

/-- The output oneof of a TrackEgressRequest: a direct file or a websocket
URL. -/
inductive TrackOutput
  | file (filepath : Str) (disableManifest : Bool)
  | websocketUrl (url : Str)
deriving DecidableEq

/-- The Track variant request body (livekit.TrackEgressRequest). -/
structure TrackEgressRequest where
  roomName : Str := []
  trackId : Str := []
  output : Option TrackOutput := none
deriving DecidableEq

/-- The bus request envelope (rpc.StartEgressRequest) restricted to the
Track variant. -/
structure StartEgressRequest where
  egressId : Str := []
  roomId : Str := []
  token : Str := []
  wsUrl : Str := []
  track : TrackEgressRequest := {}
deriving DecidableEq

/-- Modelled from the spec: egress.BuildEgressToken — builds a room token
from the api key and secret (protocol library, not in src/); token contents
are irrelevant to the claims and the build always succeeds in the model. -/
def BuildEgressToken (egressId apiKey apiSecret roomName : Str) : Str :=
  apiKey ++ str ":" ++ egressId ++ str ":" ++ roomName ++ str ":" ++ apiSecret

/-- Modelled from the spec: updateDirectOutput (called at output_file.go
part 2 line 485 but not under src/) — validates and stores the Track
variant's single output: a direct file output goes through getFileConfig
with the unknown output type (§4.8 step 3 resolves it after join), a
websocket output goes through getStreamConfig (in src/) with the raw
websocket-out output type, and a missing output is invalid input. -/
def updateDirectOutput (p : PipelineConfig) (req : TrackEgressRequest)
    (nowTime nowUtc nowFile : Str) : Except EgressError PipelineConfig :=
  match req.output with
  | some (.file filepath dm) =>
    match getFileConfig p .unknownFile filepath dm nowTime nowUtc nowFile with
    | .error e => .error e
    | .ok conf => .ok {p with outputs := p.outputs ++ [(.file, .file conf)]}
  | some (.websocketUrl url) =>
    match getStreamConfig p .raw [url] with
    | (_, .error e) => .error e
    | (p2, .ok conf) => .ok {p2 with outputs := p2.outputs ++ [(.websocket, .stream conf)]}
  | none => .error (.invalidInput (str "output"))

/-- Embedding of PipelineConfig.Update (output_file.go part 2, 298-529)
restricted to the Track request variant: the egress-id check and defaults
(298-321), the Track case (467-491), the connection-info epilogue (493-518)
and the skip of validateAndUpdateOutputParams for track egress (520-526).
The other three variants go through updateEncodedOutputs, outside src/ and
outside the claims here. time.Now() values are parameters. Line 486 of the
source returns nil when updateDirectOutput fails; the embedding faithfully
returns success carrying the partially updated config at that point. -/
def updateTrack (p : PipelineConfig) (request : StartEgressRequest)
    (nowNs : Int) (nowTime nowUtc nowFile : Str) : Except EgressError PipelineConfig :=
  if request.egressId = [] then .error (.invalidInput (str "egressID"))
  else
    let p := {p with
      info := {egressId := request.egressId, roomId := request.roomId,
                status := .starting, updatedAt := nowNs},
      audioEnabled := false, audioTranscoding := false, audioOutCodec := [],
      audioBitrate := 128, audioFrequency := 44100,
      videoEnabled := false, videoTranscoding := false, videoOutCodec := [],
      videoProfile := str "main", width := 1920, height := 1080, depth := 24,
      framerate := 30, videoBitrate := 4500, keyFrameInterval := 0}
    let p := {p with
      sourceType := .sdk, latency := sdkLatency,
      info := {p.info with roomName := request.track.roomName},
      trackId := request.track.trackId}
    if p.trackId = [] then .error (.invalidInput (str "track_id"))
    else
      match updateDirectOutput p request.track nowTime nowUtc nowFile with
      | .error _ => .ok p
      | .ok p2 =>
        if p2.info.roomName = [] then .error (.invalidInput (str "room_name"))
        else
          let tokenRes : Except EgressError PipelineConfig :=
            if request.token ≠ [] then .ok {p2 with token := request.token}
            else if p2.apiKey ≠ [] ∧ p2.apiSecret ≠ [] then
              .ok {p2 with token :=
                BuildEgressToken p2.info.egressId p2.apiKey p2.apiSecret p2.info.roomName}
            else .error (.invalidInput (str "token or api key/secret"))
          match tokenRes with
          | .error e => .error e
          | .ok p3 =>
            if request.wsUrl ≠ [] then .ok {p3 with wsUrl := request.wsUrl}
            else if p3.wsUrl = [] then .error (.invalidInput (str "ws_url"))
            else .ok p3

/-- C2 (refuting evaluation): a Track request with a non-empty track id and
a malformed websocket URL (scheme http): the output validation inside
updateDirectOutput fails with ErrInvalidUrl, yet Update returns success —
the source's Track case returns nil instead of the error (line 486), so the
invalid request is not rejected. -/
theorem update_track_swallows_invalid_output :
    (updateTrack {}
        {egressId := str "EG_1",
          track := {roomName := str "room", trackId := str "TR_1",
                    output := some (.websocketUrl (str "http://example.com"))}}
        0 (str "2024-01-02T123456") (str "20240102123456000")
        (str "2024-01-02T123456")).isOk = true ∧
    ValidateUrl (str "http://example.com") .raw =
      .error (.invalidUrl (str "http://example.com") (str "invalid scheme")) ∧
    (updateDirectOutput {}
        {roomName := str "room", trackId := str "TR_1",
          output := some (.websocketUrl (str "http://example.com"))}
        (str "2024-01-02T123456") (str "20240102123456000")
        (str "2024-01-02T123456")).isOk = false :=
  ⟨rfl, rfl, rfl⟩

/-! ## Pipeline bus-message watch -/

/-- Modelled from the spec: the runtime pipeline state that the bus-message
handlers of pkg/pipeline/watch.go read and write (the Pipeline struct is
not in src/): the playing flag, the EOS-issued fuse (p.closed), the source
type, the SDK-reported start time, the URL-to-sink-element binding table of
the stream output (§4.4), and effect logs for updateStartTime, removeSink,
SDK Playing / StreamStopped notifications, the EOS timer and stop. -/
structure Pipeline where
  sourceType : SourceType := .web
  playing : Bool := false
  closed : Bool := false
  sdkStartTime : Int := 0
  startTimes : List Int := []
  streamBindings : List (Str × Str) := []
  removedSinks : List Str := []
  streamsStopped : List Str := []
  playingNotified : List Str := []
  eosTimerArmed : Bool := false
  stopped : Bool := false
deriving DecidableEq

/-- Modelled from the spec: OutputBin.GetStreamUrl — consults the
URL-to-element binding table (§4.4); an element name with no binding is an
error (output package not in src/). -/
def GetStreamUrl (p : Pipeline) (name : Str) : Except EgressError Str :=
  match p.streamBindings.lookup name with
  | some url => .ok url
  | none => .error (.streamNotFound name)

/-- Modelled from the spec: Pipeline.removeSink (§4.4 partial failure) —
unbinds the URL, removes that one sink and lets the pipeline continue;
removal of a bound sink reports no error (pipeline package beyond watch.go
not in src/). -/
def removeSink (p : Pipeline) (url : Str) : Pipeline × Option EgressError :=
  ({p with
      streamBindings := p.streamBindings.filter (fun b => b.2 != url),
      removedSinks := p.removedSinks ++ [url]},
    none)

/-- Gst element type names used by the error dispatch (watch.go 30-33). -/
def elementGstRtmp2Sink : Str := str "GstRtmp2Sink"

/-- Gst app source element type name. -/
def elementGstAppSrc : Str := str "GstAppSrc"

/-- Gst split-muxer sink element type name. -/
def elementSplitMuxSink : Str := str "GstSplitMuxSink"

/-- The clock-problem warning text (watch.go 20). -/
def msgClockProblem : Str := str "GStreamer error: clock problem."

/-- The not-negotiated app-source message text (watch.go 21). -/
def msgStreamingNotNegotiated : Str := str "streaming stopped, reason not-negotiated (-4)"

/-- The split-muxer empty muxer message (watch.go 22). -/
def msgMuxer : Str := str ":muxer"

/-- Embedding of handleMessageWarning (watch.go 72-83): the clock-problem
warning becomes a pipeline error, every other warning is logged only. The
GError is represented by its message text. -/
def handleMessageWarning (errText : Str) : Option EgressError :=
  if errText = msgClockProblem then some (.gstPipelineError errText) else none

/-- Embedding of handleMessageError (watch.go 86-121); the GError is
represented by its top-level text and its parseDebugInfo fields (element,
name, message). RTMP sink errors look up the bound URL and remove that
sink, or return the lookup error when no URL is bound; not-negotiated app
source errors signal StreamStopped; split-muxer muxer errors after EOS are
suppressed; everything else is a fatal pipeline error. -/
def handleMessageError (p : Pipeline) (errText element name message : Str) :
    Pipeline × Option EgressError :=
  if element = elementGstRtmp2Sink then
    match GetStreamUrl p name with
    | .error e => (p, some e)
    | .ok url => removeSink p url
  else if element = elementGstAppSrc ∧ message = msgStreamingNotNegotiated then
    ({p with streamsStopped := p.streamsStopped ++ [name]}, none)
  else if element = elementSplitMuxSink ∧ message = msgMuxer ∧ p.closed = true then
    (p, none)
  else
    (p, some (.gstPipelineError errText))

/-- Embedding of handleMessageEOS (watch.go 63-70): stop the EOS timer and
stop the pipeline. -/
def handleMessageEOS (p : Pipeline) : Pipeline :=
  {p with eosTimerArmed := false, stopped := true}

/-- Embedding of updateStartTime as an effect log: the handler anchors the
job's start time (§4.2 updated_at) with the given value. -/
def updateStartTime (p : Pipeline) (t : Int) : Pipeline :=
  {p with startTimes := p.startTimes ++ [t]}

/-- Modelled from the spec: source.AudioAppSource, the audio input element
name (source package not in src/). -/
def audioAppSource : Str := str "audio_src"

/-- Modelled from the spec: source.VideoAppSource, the video input element
name. -/
def videoAppSource : Str := str "video_src"

/-- Modelled from the spec: pipelineSource, the pipeline root source name. -/
def pipelineSource : Str := str "pipeline"

/-- Gst element states appearing in StateChanged messages. -/
inductive GstState
  | voidPending
  | null
  | ready
  | paused
  | playing
deriving DecidableEq

/-- Embedding of handleMessageStateChanged (watch.go 136-164): everything is
ignored once the pipeline is playing or for states other than Playing; a
Playing transition of the audio or video app source notifies the SDK
source; a Playing transition of the pipeline root sets the playing flag and
anchors the start time from the SDK-reported start time for SDK sources or
wall-clock now (the now parameter models time.Now()) for web sources. -/
def handleMessageStateChanged (now : Int) (p : Pipeline) (source : Str)
    (newState : GstState) : Pipeline :=
  if p.playing = true then p
  else if newState ≠ .playing then p
  else if source = audioAppSource ∨ source = videoAppSource then
    {p with playingNotified := p.playingNotified ++ [source]}
  else if source = pipelineSource then
    let p1 : Pipeline := {p with playing := true}
    match p1.sourceType with
    | .sdk => updateStartTime p1 p1.sdkStartTime
    | .web => updateStartTime p1 now
  else p

/-- Bus messages dispatched by messageWatch (watch.go 35-61); errors and
warnings are represented by their parsed text fields, StateChanged by the
source name and new state. Element messages (fragment events) are outside
the claims considered and are omitted from the message type. -/
inductive Message
  | eos
  | warning (errText element name message : Str)
  | error (errText element name message : Str)
  | stateChanged (source : Str) (newState : GstState)
deriving DecidableEq

/-- Embedding of messageWatch (watch.go 35-61): EOS stops the pipeline and
ends the watch; warnings and errors may produce an error, which is posted
to the Failure channel (the Option in the result) and ends the watch;
StateChanged never produces an error. The Bool is the watch continuation
result. -/
def messageWatch (now : Int) (p : Pipeline) (msg : Message) :
    Pipeline × Option EgressError × Bool :=
  match msg with
  | .eos => (handleMessageEOS p, none, false)
  | .warning errText _ _ _ =>
    match handleMessageWarning errText with
    | some e => (p, some e, false)
    | none => (p, none, true)
  | .error errText element name message =>
    match handleMessageError p errText element name message with
    | (p2, some e) => (p2, some e, false)
    | (p2, none) => (p2, none, true)
  | .stateChanged source newState =>
    (handleMessageStateChanged now p source newState, none, true)

/-- C7: a warning whose text is the clock-problem message makes the watch
post a fatal pipeline error to the failure channel and stop; every other
warning is logged only — no error is posted and the watch continues. -/
theorem warning_clock_problem_fatal (now : Int) (p : Pipeline)
    (errText element name message : Str) :
    messageWatch now p (.warning errText element name message) =
      if errText = msgClockProblem then (p, some (.gstPipelineError errText), false)
      else (p, none, true) := by
  by_cases h : errText = msgClockProblem <;>
    simp [messageWatch, handleMessageWarning, h]

/-- C3 (counterexample): an Error message from a GstRtmp2Sink element whose
instance has no bound URL (empty binding table) is escalated — the lookup
error is posted to the failure channel — refuting "never escalates the
error to a job-fatal failure". -/
theorem rtmp_error_escalates_when_unbound :
    (messageWatch 0 {} (.error (str "could not connect") (str "GstRtmp2Sink")
        (str "sink_0") [])).2.1 ≠ none := by
  decide

/-- C3 (amended): for an Error message from an RTMP sink element, if the
binding table holds a URL for that element instance the watch removes
exactly that stream sink — that binding is dropped, the URL is logged as
removed — posts no failure and continues; if no URL is bound, the lookup
error is posted to the failure channel. -/
theorem rtmp_error_removes_bound_sink (now : Int) (p : Pipeline)
    (errText name message url : Str)
    (h : p.streamBindings.lookup name = some url) :
    messageWatch now p (.error errText elementGstRtmp2Sink name message) =
      ({p with
          streamBindings := p.streamBindings.filter (fun b => b.2 != url),
          removedSinks := p.removedSinks ++ [url]},
        none, true) ∧
    ∀ q : Pipeline, ∀ name2 : Str, q.streamBindings.lookup name2 = none →
      ∃ e, messageWatch now q (.error errText elementGstRtmp2Sink name2 message) =
        (q, some e, false) := by
  constructor
  · simp [messageWatch, handleMessageError, GetStreamUrl, h, removeSink]
  · intro q name2 hq
    exact ⟨.streamNotFound name2, by
      simp [messageWatch, handleMessageError, GetStreamUrl, hq]⟩

/-- C3 witness: the amended theorem applied to a binding table holding one
RTMP sink element bound to its URL. -/
theorem rtmp_error_removes_bound_sink_witness :
    messageWatch 0
        {streamBindings := [(str "sink_0", str "rtmp://h/app/key")]}
        (.error (str "could not connect") elementGstRtmp2Sink (str "sink_0") []) =
      ({streamBindings := [], removedSinks := [str "rtmp://h/app/key"]},
        none, true) := by
  have h := (rtmp_error_removes_bound_sink 0
      {streamBindings := [(str "sink_0", str "rtmp://h/app/key")]}
      (str "could not connect") (str "sink_0") [] (str "rtmp://h/app/key")
      (by decide)).1
  rw [h]
  decide

/-- A run of StateChanged bus messages: each message carries the wall clock
at which it is handled (time.Now()), the source name and the new state. -/
def runStateChanged (p : Pipeline) (msgs : List (Int × Str × GstState)) : Pipeline :=
  msgs.foldl (fun q m => handleMessageStateChanged m.1 q m.2.1 m.2.2) p

theorem stateChanged_step_of_playing (now : Int) (p : Pipeline) (s : Str)
    (ns : GstState) (h : p.playing = true) :
    handleMessageStateChanged now p s ns = p := by
  simp [handleMessageStateChanged, h]

theorem runStateChanged_of_playing (p : Pipeline)
    (msgs : List (Int × Str × GstState)) (h : p.playing = true) :
    runStateChanged p msgs = p := by
  induction msgs with
  | nil => rfl
  | cons m rest ih =>
    simp only [runStateChanged, List.foldl_cons,
      stateChanged_step_of_playing m.1 p m.2.1 m.2.2 h]
    exact ih

theorem stateChanged_step_cases (now : Int) (p : Pipeline) (s : Str)
    (ns : GstState) (h : p.playing = false) :
    handleMessageStateChanged now p s ns = p ∨
    handleMessageStateChanged now p s ns =
      {p with playingNotified := p.playingNotified ++ [s]} ∨
    handleMessageStateChanged now p s ns =
      {p with playing := true, startTimes := p.startTimes ++
        [if p.sourceType = .sdk then p.sdkStartTime else now]} := by
  by_cases h1 : ns = GstState.playing
  · by_cases h2 : s = audioAppSource ∨ s = videoAppSource
    · exact Or.inr (Or.inl (by simp [handleMessageStateChanged, h, h1, h2]))
    · by_cases h3 : s = pipelineSource
      · refine Or.inr (Or.inr ?_)
        cases hst : p.sourceType with
        | sdk =>
          simp [handleMessageStateChanged, h, h1, h2, h3, hst, updateStartTime]
          decide
        | web =>
          simp [handleMessageStateChanged, h, h1, h2, h3, hst, updateStartTime]
          decide
      · exact Or.inl (by simp [handleMessageStateChanged, h, h1, h2, h3])
  · exact Or.inl (by simp [handleMessageStateChanged, h, h1])

/-- C10: once the pipeline is playing, every later StateChanged message is
ignored (the handler is the identity), so over any run of StateChanged
messages beginning with the playing flag unset and no recorded start time,
the start time is anchored at most once — with the SDK-reported start time
for SDK-sourced jobs or the handling wall clock of the triggering message
for web-sourced jobs. -/
theorem stateChanged_ignored_after_playing :
    (∀ (now : Int) (p : Pipeline) (s : Str) (ns : GstState), p.playing = true →
      handleMessageStateChanged now p s ns = p) ∧
    (∀ (msgs : List (Int × Str × GstState)) (p : Pipeline),
      p.playing = false → p.startTimes = [] →
      (runStateChanged p msgs).startTimes = [] ∨
      (p.sourceType = .sdk ∧ (runStateChanged p msgs).startTimes = [p.sdkStartTime]) ∨
      (p.sourceType = .web ∧ ∃ m ∈ msgs, (runStateChanged p msgs).startTimes = [m.1])) := by
  refine ⟨stateChanged_step_of_playing, fun msgs => ?_⟩
  induction msgs with
  | nil =>
    intro p hp hs
    exact Or.inl (by simpa [runStateChanged] using hs)
  | cons m rest ih =>
    intro p hp hs
    rcases stateChanged_step_cases m.1 p m.2.1 m.2.2 hp with h1 | h2 | h3
    · have hfold : runStateChanged p (m :: rest) = runStateChanged p rest := by
        simp only [runStateChanged, List.foldl_cons, h1]
      rw [hfold]
      rcases ih p hp hs with ha | hb | hc
      · exact Or.inl ha
      · exact Or.inr (Or.inl hb)
      · obtain ⟨m2, hm2, he⟩ := hc.2
        exact Or.inr (Or.inr ⟨hc.1, m2, List.mem_cons_of_mem m hm2, he⟩)
    · have hfold : runStateChanged p (m :: rest) =
          runStateChanged {p with playingNotified := p.playingNotified ++ [m.2.1]} rest := by
        simp only [runStateChanged, List.foldl_cons, h2]
      rw [hfold]
      rcases ih {p with playingNotified := p.playingNotified ++ [m.2.1]} hp hs
        with ha | hb | hc
      · exact Or.inl ha
      · exact Or.inr (Or.inl hb)
      · obtain ⟨m2, hm2, he⟩ := hc.2
        exact Or.inr (Or.inr ⟨hc.1, m2, List.mem_cons_of_mem m hm2, he⟩)
    · have hfold : runStateChanged p (m :: rest) =
          runStateChanged {p with playing := true, startTimes := p.startTimes ++
            [if p.sourceType = .sdk then p.sdkStartTime else m.1]} rest := by
        simp only [runStateChanged, List.foldl_cons, h3]
      rw [hfold, runStateChanged_of_playing _ rest rfl]
      cases hsrc : p.sourceType with
      | sdk =>
        exact Or.inr (Or.inl ⟨rfl, by simp [hs]⟩)
      | web =>
        exact Or.inr (Or.inr ⟨rfl, m, List.mem_cons_self m rest, by simp [hs]⟩)

/-- C10 witness: a playing pipeline ignores a pipeline-root StateChanged
message, and a web-sourced run consisting of the single pipeline-playing
message anchors the start time exactly once at that message's wall clock. -/
theorem stateChanged_ignored_after_playing_witness :
    handleMessageStateChanged 7 {playing := true} pipelineSource .playing =
      {playing := true} ∧
    ((runStateChanged {sourceType := .web}
        [(5, pipelineSource, GstState.playing)]).startTimes = [] ∨
      ((Pipeline.mk .web false false 0 [] [] [] [] [] false false).sourceType = .sdk ∧
        (runStateChanged {sourceType := .web}
          [(5, pipelineSource, GstState.playing)]).startTimes = [(0 : Int)]) ∨
      ((Pipeline.mk .web false false 0 [] [] [] [] [] false false).sourceType = .web ∧
        ∃ m ∈ [((5 : Int), pipelineSource, GstState.playing)],
          (runStateChanged {sourceType := .web}
            [(5, pipelineSource, GstState.playing)]).startTimes = [m.1])) :=
  ⟨stateChanged_ignored_after_playing.1 7 {playing := true} pipelineSource .playing rfl,
    stateChanged_ignored_after_playing.2 [(5, pipelineSource, GstState.playing)]
      {sourceType := .web} rfl rfl⟩

/-! ## Handler construction -/

/-- Modelled from the spec (§7): an error of the egress errors package with
its fatal classification — errors.Fatal wraps an error as fatal and
errors.IsFatal tests the flag (pkg/errors not in src/). -/
structure GoError where
  msg : Str
  fatal : Bool
deriving DecidableEq

/-- Outcomes of the fallible collaborator calls made by NewHandler
(pkg/service/handler.go 39-88), in call order: rpc.NewEgressHandlerServer,
RegisterUpdateStreamTopic, RegisterStopEgressTopic, net.Listen (each some
error message when it fails), and pipeline.New (whose error carries the
fatal classification). -/
structure HandlerDeps where
  rpcServerNew : Option Str := none
  registerUpdateStream : Option Str := none
  registerStopEgress : Option Str := none
  listen : Option Str := none
  pipelineNew : Except GoError Unit := .ok ()

/-- Embedding of NewHandler (pkg/service/handler.go 39-88): each collaborator
failure before pipeline construction is wrapped errors.Fatal and returned
with no status update; a pipeline.New failure that is not fatal sends
exactly one FAILED status update carrying the error message with UpdatedAt
and EndedAt set to now, then returns the error; a fatal pipeline.New
failure returns with no update. The result is the list of updates passed to
sendUpdate together with the constructor's error result. -/
def newHandler (deps : HandlerDeps) (info : EgressInfo) (now : Int) :
    List EgressInfo × Except GoError Unit :=
  match deps.rpcServerNew with
  | some e => ([], .error ⟨e, true⟩)
  | none =>
    match deps.registerUpdateStream with
    | some e => ([], .error ⟨e, true⟩)
    | none =>
      match deps.registerStopEgress with
      | some e => ([], .error ⟨e, true⟩)
      | none =>
        match deps.listen with
        | some e => ([], .error ⟨e, true⟩)
        | none =>
          match deps.pipelineNew with
          | .error err =>
            if err.fatal = false then
              ([{info with
                  updatedAt := now, endedAt := now, status := .failed,
                  error := err.msg}], .error err)
            else ([], .error err)
          | .ok _ => ([], .ok ())

/-- C4: when pipeline construction fails with a non-fatal (user) error,
NewHandler sends exactly one status update, carrying status FAILED, the
error message and EndedAt set to now; when construction fails with a fatal
error — at any of the construction steps — no status update is sent before
the constructor returns. -/
theorem newHandler_failure_updates :
    (∀ (deps : HandlerDeps) (info : EgressInfo) (now : Int) (err : GoError),
      deps.rpcServerNew = none → deps.registerUpdateStream = none →
      deps.registerStopEgress = none → deps.listen = none →
      deps.pipelineNew = .error err → err.fatal = false →
      newHandler deps info now =
        ([{info with
            updatedAt := now, endedAt := now, status := .failed,
            error := err.msg}], .error err)) ∧
    (∀ (deps : HandlerDeps) (info : EgressInfo) (now : Int) (err : GoError),
      (newHandler deps info now).2 = .error err → err.fatal = true →
      (newHandler deps info now).1 = []) := by
  constructor
  · intro deps info now err h1 h2 h3 h4 h5 h6
    simp [newHandler, h1, h2, h3, h4, h5, h6]
  · intro deps info now err h hf
    obtain ⟨r1, r2, r3, r4, pn⟩ := deps
    cases r1 with
    | some e => rfl
    | none =>
    cases r2 with
    | some e => rfl
    | none =>
    cases r3 with
    | some e => rfl
    | none =>
    cases r4 with
    | some e => rfl
    | none =>
    cases pn with
    | ok u => simp [newHandler] at h
    | error e =>
      by_cases hef : e.fatal = false
      · simp only [newHandler, hef, if_true] at h hf ⊢
        have : e = err := by simpa using h
        rw [← this] at hf
        rw [hf] at hef
        exact absurd hef (by simp)
      · simp [newHandler, hef]

/-- C4 witness: the non-fatal conjunct applied to a failing pipeline
construction with a user error, and the fatal conjunct applied to a fatal
pipeline failure. -/
theorem newHandler_failure_updates_witness :
    newHandler {pipelineNew := .error ⟨str "invalid output url", false⟩} {} 5 =
      ([{({} : EgressInfo) with
          updatedAt := 5, endedAt := 5, status := .failed,
          error := str "invalid output url"}], .error ⟨str "invalid output url", false⟩) ∧
    (newHandler {pipelineNew := .error ⟨str "oom", true⟩} {} 0).1 = [] :=
  ⟨newHandler_failure_updates.1 {pipelineNew := .error ⟨str "invalid output url", false⟩}
      {} 5 ⟨str "invalid output url", false⟩ rfl rfl rfl rfl rfl rfl,
    newHandler_failure_updates.2 {pipelineNew := .error ⟨str "oom", true⟩} {} 0
      ⟨str "oom", true⟩ rfl rfl⟩

end Egress
